import Mathlib

/-!
Shallow embedding of the Retrieval & Context Assembly Engine:
the embedding cache and provider, cosine-similarity scorer, retriever,
summarizer, and the send-message orchestration of the chat controller.
External capabilities (the embedding model, the generation model) are
modelled as oracle functions passed in as parameters; a `none` result
models a thrown error after retries are exhausted.
-/

namespace Spec2Proof

/-- JavaScript strings are modelled as lists of characters (one element per
code unit of the source string). -/
abbrev JStr := List Char

/-- An embedding vector (JS `number[]`), modelled over the reals. -/
abbrev Emb := List ℝ

/-- The embedding cache: a JS `Map` keyed by text prefix, modelled as an
association list in insertion order (oldest entry first, new entries
appended at the back). -/
abbrev Cache := List (JStr × Emb)

/-- Cache key: `text.substring(0, 100)`. -/
def cacheKey (text : JStr) : JStr := text.take 100

/-- Lookup in the cache (`embeddingCache.has` / `embeddingCache.get`). -/
def lookupCache : Cache → JStr → Option Emb
  | [], _ => none
  | (k, v) :: rest, key => if k = key then some v else lookupCache rest key

/-- The keys of the cache in insertion order. -/
def cacheKeys (c : Cache) : List JStr := c.map (·.1)

/-- The `generateEmbedding` provider of `utils/embedding-utils.js`:
on a cache hit return the cached vector; on a miss consult the external
embedding capability (`embed text`, where `none` models a failure after
the retry budget is exhausted, which the source re-throws); on success
insert at the back of the cache and, if the size now exceeds 1000,
evict the single oldest-inserted entry. Returns the embedding result
together with the updated cache. -/
def generateEmbedding (embed : JStr → Option Emb) (cache : Cache) (text : JStr) :
    Option Emb × Cache :=
  match lookupCache cache (cacheKey text) with
  | some v => (some v, cache)
  | none =>
    match embed text with
    | none => (none, cache)
    | some e =>
      let c1 := cache ++ [(cacheKey text, e)]
      (some e, if 1000 < c1.length then c1.tail else c1)

/-- One dictionary entry as produced by a successful external embed. -/
def cacheEntry (embed : JStr → Option Emb) (t : JStr) : JStr × Emb :=
  (cacheKey t, (embed t).getD [])

/-- The cache after one `generateEmbedding` call (only the state part). -/
def insertStep (embed : JStr → Option Emb) (cache : Cache) (t : JStr) : Cache :=
  (generateEmbedding embed cache t).2

/-- The cache after a sequence of `generateEmbedding` calls. -/
def runAll (embed : JStr → Option Emb) (cache : Cache) (ts : List JStr) : Cache :=
  ts.foldl (insertStep embed) cache

/-- Dot product accumulated by the loop of `cosineSimilarity`. -/
def dotList (a b : List ℝ) : ℝ := (List.zipWith (fun x y => x * y) a b).sum

/-- Sum of squares of the entries (the `normA` / `normB` accumulators of
`cosineSimilarity` before the square root is taken). -/
def normSq (a : List ℝ) : ℝ := (a.map (fun x => x * x)).sum

/-- `cosineSimilarity(vecA, vecB)` from `utils/embedding-utils.js`:
returns 0 when either argument is missing, the lengths differ, the vectors
are empty, or either norm accumulator is zero; otherwise the dot product
divided by the product of the Euclidean norms. -/
noncomputable def cosineSimilarity : Option Emb → Option Emb → ℝ
  | none, _ => 0
  | some _, none => 0
  | some a, some b =>
    if a.length ≠ b.length ∨ a.length = 0 then 0
    else if normSq a = 0 ∨ normSq b = 0 then 0
    else dotList a b / (Real.sqrt (normSq a) * Real.sqrt (normSq b))

/-- A candidate passed to `findRelevantChunks`: a text with an optional
embedding (JS objects may lack the field or hold an empty array) and the
file-name label attached by the caller (empty when absent). -/
structure RChunk where
  text : JStr
  embedding : Option Emb
  fileName : JStr

/-- A candidate together with its relevance score (spread of the candidate
plus the `score` field). Derived, never persisted. -/
structure ScoredChunk where
  text : JStr
  embedding : Option Emb
  fileName : JStr
  score : ℝ

/-- The filter of `findRelevantChunks`:
`chunk.embedding && chunk.embedding.length > 0`. -/
def embNonempty : Option Emb → Bool
  | none => false
  | some l => !l.isEmpty

/-- Comparison relation realised by the comparator
`(a, b) => b.score - a.score` (descending score order). -/
def scoreGe (a b : ScoredChunk) : Prop := b.score ≤ a.score

instance : IsTotal ScoredChunk scoreGe := ⟨fun a b => le_total b.score a.score⟩

instance : IsTrans ScoredChunk scoreGe := ⟨fun _ _ _ hab hbc => le_trans hbc hab⟩

noncomputable instance : DecidableRel scoreGe :=
  fun a b => Real.decidableLE b.score a.score

/-- Score of one candidate: 70% cosine similarity to the query embedding
plus 30% length bonus `min(1, text.length / 2000)`. -/
noncomputable def scoreChunk (qe : Emb) (ch : RChunk) : ScoredChunk :=
  ⟨ch.text, ch.embedding, ch.fileName,
    cosineSimilarity (some qe) ch.embedding * 0.7 +
      min 1 ((ch.text.length : ℝ) / 2000) * 0.3⟩

/-- `findRelevantChunks(query, embeddedChunks, count)` from
`utils/embedding-utils.js`: returns the empty list for an empty candidate
set; embeds the query (an embedding failure is caught and yields the empty
list); filters out candidates with empty or missing embeddings; scores the
survivors; returns the empty list when none survive; otherwise sorts by
score descending and truncates to `count`. The updated cache is threaded
through. -/
noncomputable def findRelevantChunks (embed : JStr → Option Emb) (cache : Cache)
    (query : JStr) (chunks : List RChunk) (count : ℕ) : List ScoredChunk × Cache :=
  if chunks.isEmpty then ([], cache)
  else
    match generateEmbedding embed cache query with
    | (none, c1) => ([], c1)
    | (some qe, c1) =>
      let scored := (chunks.filter fun ch => embNonempty ch.embedding).map (scoreChunk qe)
      if scored.isEmpty then ([], c1)
      else ((scored.insertionSort scoreGe).take count, c1)

/-- An output element of `generateChunkEmbeddings`: the chunk text with its
embedding (empty when the per-chunk embedding call failed). -/
structure Chunk where
  text : JStr
  embedding : Emb

/-- `generateChunkEmbeddings(chunks)` from `utils/embedding-utils.js`:
embeds each chunk in order through `generateEmbedding` (threading the
cache); a per-chunk failure is caught and the chunk is emitted with an
empty embedding instead of aborting the batch. -/
def generateChunkEmbeddings (embed : JStr → Option Emb) :
    Cache → List JStr → List Chunk × Cache
  | cache, [] => ([], cache)
  | cache, c :: cs =>
    match generateEmbedding embed cache c with
    | (r, c1) =>
      let rest := generateChunkEmbeddings embed c1 cs
      (⟨c, r.getD []⟩ :: rest.1, rest.2)

/-- The sequence of per-chunk embedding outcomes produced while running
`generateChunkEmbeddings` (`none` = that chunk's embedding call failed). -/
def embedResults (embed : JStr → Option Emb) : Cache → List JStr → List (Option Emb)
  | _, [] => []
  | cache, c :: cs =>
    match generateEmbedding embed cache c with
    | (r, c1) => r :: embedResults embed c1 cs

/-- Message sender discriminator (`sender: 'user' | 'ai'`). -/
inductive Sender where
  | user : Sender
  | ai : Sender
deriving DecidableEq

/-- A conversation message as stored on the chat record. -/
structure Message where
  sender : Sender
  content : JStr
  embedding : Option Emb
  fileRefs : List JStr

/-- A stored conversation summary with its absolute message range. -/
structure SummaryRec where
  text : JStr
  embedding : Emb
  messageRange : ℕ × ℕ

/-- The chat record: ordered messages, ordered summaries, and a title. -/
structure ChatState where
  messages : List Message
  summaries : List SummaryRec
  title : JStr

/-- Rendering of one message in the summarization prompt:
`` `${msg.sender === 'user' ? 'User' : 'AI'}: ${msg.content}` ``. -/
def senderLabel : Sender → JStr
  | Sender.user => "User".data
  | Sender.ai => "AI".data

/-- The formatted message block of the summarization prompt. -/
def formatMessages (messages : List Message) : JStr :=
  List.intercalate "\n\n".data
    (messages.map fun m => senderLabel m.sender ++ ": ".data ++ m.content)

/-- Fixed header of the summarization prompt. -/
def summaryHeader : JStr :=
  ("Summarize the following conversation, focusing on technical details and key decisions. Keep the summary concise but include all important information:\n\n").data

/-- The full condensation prompt sent to the generation capability. -/
def summaryQuery (messages : List Message) : JStr :=
  summaryHeader ++ formatMessages messages

/-- The static degraded summary text returned when generation fails. -/
def fallbackSummaryText : JStr := "Previous conversation covered various topics.".data

/-- Result of `generateSummary`: summary text plus its embedding. -/
structure SummaryResult where
  text : JStr
  embedding : Emb

/-- `generateSummary(messages)` from `utils/embedding-utils.js`:
formats the window, asks the generation capability (`gen`) for a summary;
on unrecoverable generation failure returns the static fallback text with
an empty embedding; on success embeds the summary text, where an embedding
failure is caught and leaves the embedding empty. -/
def generateSummary (gen : JStr → Option JStr) (embed : JStr → Option Emb)
    (cache : Cache) (messages : List Message) : SummaryResult × Cache :=
  match gen (summaryQuery messages) with
  | none => (⟨fallbackSummaryText, []⟩, cache)
  | some s =>
    match generateEmbedding embed cache s with
    | (r, c1) => (⟨s, r.getD []⟩, c1)

/-- The summarization trigger of the controller:
`chat.messages.length > 10 && chat.messages.length % 10 === 0`. -/
def shouldSummarize (messageCount : ℕ) : Bool :=
  decide (10 < messageCount) && decide (messageCount % 10 = 0)

/-- Normalisation of one `Array.prototype.slice` index: negative indices
count from the end (clamped at 0), non-negative ones are clamped at the
length. -/
def jsSliceIdx (len : ℕ) (i : Int) : ℕ :=
  if i < 0 then len - (-i).toNat else min i.toNat len

/-- JavaScript `array.slice(start, end)` with possibly negative indices. -/
def jsSlice (l : List α) (s e : Int) : List α :=
  (l.take (jsSliceIdx l.length e)).drop (jsSliceIdx l.length s)

/-- The summarized window: `chat.messages.slice(-11, -1)` (the 10 messages
preceding the just-appended user message). -/
def summaryWindow (messages : List Message) : List Message :=
  jsSlice messages (-11) (-1)

/-- The recorded summary range:
`{start: messages.length - 11, end: messages.length - 1}`. -/
def summaryRange (len : ℕ) : ℕ × ℕ := (len - 11, len - 1)

/-- `getRelevantSummaries(chat, query)` of the controller: empty when the
chat has no summaries, otherwise the single most relevant summary
(`topK = 1`) formatted with its provenance label. -/
noncomputable def getRelevantSummaries (embed : JStr → Option Emb) (cache : Cache)
    (query : JStr) (chat : ChatState) : JStr × Cache :=
  if chat.summaries.isEmpty then ([], cache)
  else
    match findRelevantChunks embed cache query
        (chat.summaries.map fun s => ⟨s.text, some s.embedding, []⟩) 1 with
    | (rel, c1) =>
      (List.intercalate "\n\n".data
        (rel.map fun s => "CONVERSATION SUMMARY: ".data ++ s.text), c1)

/-- `getRelevantMessages(chat, query)` of the controller: empty when the
chat holds at most 5 messages; otherwise retrieves with `topK = 3` from the
messages older than the most recent 5 (`slice(0, -5)`) that carry a
non-empty embedding, joining the retrieved texts; falls back to
`getRelevantSummaries` when no candidate carries an embedding. -/
noncomputable def getRelevantMessages (embed : JStr → Option Emb) (cache : Cache)
    (query : JStr) (chat : ChatState) : JStr × Cache :=
  if chat.messages.length ≤ 5 then ([], cache)
  else
    let withEmb := (jsSlice chat.messages 0 (-5)).filter fun m => embNonempty m.embedding
    if withEmb.isEmpty then getRelevantSummaries embed cache query chat
    else
      match findRelevantChunks embed cache query
          (withEmb.map fun m => ⟨m.content, m.embedding, []⟩) 3 with
      | (rel, c1) => (List.intercalate "\n\n".data (rel.map fun m => m.text), c1)

/-- The candidate pool of the secondary retrieval path as the spec words
it: the messages older than the most recent 5. -/
def olderThanRecent5 (msgs : List Message) : List Message :=
  msgs.take (msgs.length - 5)

/-- Title post-processing of the controller: a generated title longer than
50 characters becomes its first 47 characters plus an ellipsis; on
title-generation failure (`none`) the fallback is the user message,
truncated to its first 27 characters plus an ellipsis when it is longer
than 30 characters. -/
def storedTitle (suggested : Option JStr) (message : JStr) : JStr :=
  match suggested with
  | some t => if 50 < t.length then t.take 47 ++ "...".data else t
  | none => if 30 < message.length then message.take 27 ++ "...".data else message

/-- Events emitted to the per-user notification channel. -/
inductive Event where
  | processingStarted : Event
  | messageChunk : JStr → Event
  | processingCompleted : JStr → Event
  | errorEvent : JStr → Event

/-- The HTTP-level outcome of `sendMessage`: a success payload (reply and
title) or a 500 failure carrying the upstream error detail. -/
inductive Response where
  | ok : JStr → JStr → Response
  | fail : JStr → Response

/-- The external capabilities consumed by one `sendMessage` request. -/
structure SendDeps where
  embed : JStr → Option Emb
  summaryGen : JStr → Option JStr
  genStream : Except JStr (List JStr)
  titleGen : JStr → Option JStr

/-- The error detail produced when an embedding call fails
(`new Error('Failed to generate embedding')`). -/
def failedEmbedding : JStr := "Failed to generate embedding".data

/-- The title-generation prompt built from the exchange. -/
def titlePrompt (message aiReply : JStr) : JStr :=
  "Based on this conversation, generate a very brief title (max 5 words):\nUser: ".data
    ++ message ++ "\nAI: ".data ++ aiReply

/-- The user message appended in step 2 of the orchestration. -/
def userMessage (message : JStr) (emb : Emb) (fileRefs : List JStr) : Message :=
  ⟨Sender.user, message, some emb, fileRefs⟩

/-- Step 4 of the orchestration: when the summarization trigger fires on
the post-append message count, run `generateSummary` over the window and
append the resulting summary with its absolute range; otherwise leave the
chat unchanged. -/
def summaryStage (deps : SendDeps) (c1 : Cache) (chat1 : ChatState) :
    ChatState × Cache :=
  if shouldSummarize chat1.messages.length then
    let sr := generateSummary deps.summaryGen deps.embed c1 (summaryWindow chat1.messages)
    (⟨chat1.messages,
      chat1.summaries ++ [⟨sr.1.text, sr.1.embedding, summaryRange chat1.messages.length⟩],
      chat1.title⟩, sr.2)
  else (chat1, c1)

/-- Step 8 of the orchestration: on the first completed exchange store the
processed title, otherwise keep the chat as is. -/
def titleStage (isFirst : Prop) [Decidable isFirst] (chat3 : ChatState)
    (title : JStr) : ChatState :=
  if isFirst then ⟨chat3.messages, chat3.summaries, title⟩ else chat3

/-- `sendMessage` of `controllers/gemini.controller.js` (success and
failure paths after the chat lookup): embed the user message (a failure
here aborts before the append); append the user message and persist; emit
the started event; summarize when the trigger fires; gather file context
and conversation context; stream the generation (`deps.genStream`,
`Except.error` = upstream failure); on stream output, embed and append the
AI reply, set the title on the first exchange, and emit completion; every
caught error emits an error event and returns a 500 with the upstream
detail, leaving the chat state as last persisted. -/
noncomputable def sendMessage (deps : SendDeps) (cache : Cache) (chat : ChatState)
    (message : JStr) (fileRefs : List JStr) (referencedChunks : List RChunk) :
    Response × ChatState × List Event × Cache :=
  match generateEmbedding deps.embed cache message with
  | (none, c1) =>
    (Response.fail failedEmbedding, chat, [Event.errorEvent failedEmbedding], c1)
  | (some emb, c1) =>
    let chat1 : ChatState :=
      ⟨chat.messages ++ [userMessage message emb fileRefs], chat.summaries, chat.title⟩
    let isFirst := chat1.messages.length = 1
    let afterSummary : ChatState × Cache := summaryStage deps c1 chat1
    let chat2 := afterSummary.1
    let c2 := afterSummary.2
    let fileStep : List ScoredChunk × Cache :=
      if referencedChunks.isEmpty then ([], c2)
      else findRelevantChunks deps.embed c2 message referencedChunks 3
    let fileContext : JStr :=
      List.intercalate "\n\n".data
        (fileStep.1.map fun ch => "[From ".data ++ ch.fileName ++ "]: ".data ++ ch.text)
    let c3 := fileStep.2
    let msgStep := getRelevantMessages deps.embed c3 message chat2
    let msgContext := msgStep.1
    let c4 := msgStep.2
    let contextPrompt : JStr :=
      if fileContext.isEmpty && msgContext.isEmpty then []
      else
        "[System] Prioritize (70%) this context over general knowledge:\n\n".data
          ++ (if fileContext.isEmpty then []
              else "FILE CONTEXT:\n".data ++ fileContext ++ "\n\n".data)
          ++ (if msgContext.isEmpty then []
              else "CONVERSATION CONTEXT:\n".data ++ msgContext ++ "\n\n".data)
          ++ "Now answer the user's query based on this context and your knowledge.\n\n".data
    let _promptWithContext : JStr := contextPrompt ++ message
    match deps.genStream with
    | Except.error e =>
      (Response.fail e, chat2,
        [Event.processingStarted, Event.errorEvent e], c4)
    | Except.ok streamParts =>
      let aiReply : JStr := List.foldl (· ++ ·) [] streamParts
      let chunkEvents := (streamParts.filter fun c => !c.isEmpty).map Event.messageChunk
      match generateEmbedding deps.embed c4 aiReply with
      | (none, c5) =>
        (Response.fail failedEmbedding, chat2,
          [Event.processingStarted] ++ chunkEvents ++ [Event.errorEvent failedEmbedding],
          c5)
      | (some aiEmb, c5) =>
        let chat3 : ChatState :=
          ⟨chat2.messages ++ [⟨Sender.ai, aiReply, some aiEmb, []⟩],
            chat2.summaries, chat2.title⟩
        let chat4 : ChatState :=
          titleStage isFirst chat3
            (storedTitle (deps.titleGen (titlePrompt message aiReply)) message)
        (Response.ok aiReply chat4.title, chat4,
          [Event.processingStarted] ++ chunkEvents ++ [Event.processingCompleted chat4.title],
          c5)

/-- Letter table used to build concrete distinct cache-key texts. -/
def c9Letter (r : ℕ) : Char := "abcdefghijklmnopqrstuvwxyz".data.getD r 'a'

/-- A family of short pairwise-distinct texts (length at most 39 for
indices below 1001, so each text is its own 100-character cache key). -/
def c9Text (i : ℕ) : JStr := List.replicate (i / 26) '_' ++ [c9Letter (i % 26)]

/-- 1001 texts with pairwise-distinct cache keys. -/
def c9Texts : List JStr := (List.range 1001).map c9Text

theorem normSq_nil : normSq [] = 0 := rfl

theorem normSq_cons (x : ℝ) (l : List ℝ) : normSq (x :: l) = x * x + normSq l := by
  simp [normSq]

theorem dotList_nil_left (b : List ℝ) : dotList [] b = 0 := rfl

theorem dotList_cons (x y : ℝ) (a b : List ℝ) :
    dotList (x :: a) (y :: b) = x * y + dotList a b := by
  simp [dotList]

theorem normSq_nonneg (a : List ℝ) : 0 ≤ normSq a := by
  refine List.sum_nonneg ?_
  intro x hx
  obtain ⟨y, -, rfl⟩ := List.mem_map.mp hx
  exact mul_self_nonneg y

/-- Cauchy–Schwarz for the loop sums of `cosineSimilarity`. -/
theorem dotList_sq_le (a : List ℝ) : ∀ b : List ℝ,
    dotList a b ^ 2 ≤ normSq a * normSq b := by
  induction a with
  | nil =>
    intro b
    simp [dotList, normSq]
  | cons x a ih =>
    intro b
    cases b with
    | nil =>
      simp [dotList, normSq]
    | cons y b =>
      have h := ih b
      have hna := normSq_nonneg a
      have hnb := normSq_nonneg b
      rw [dotList_cons, normSq_cons, normSq_cons]
      rcases eq_or_lt_of_le hnb with hb0 | hbpos
      · have hd0 : dotList a b = 0 := by
          have h1 : dotList a b ^ 2 ≤ 0 := by nlinarith [h, hna]
          have h2 : (0 : ℝ) ≤ dotList a b ^ 2 := sq_nonneg _
          have : dotList a b ^ 2 = 0 := le_antisymm h1 h2
          exact pow_eq_zero_iff (n := 2) (by norm_num) |>.mp this
        rw [hd0, ← hb0]
        nlinarith [mul_nonneg hna (mul_self_nonneg y)]
      · nlinarith [sq_nonneg (x * normSq b - y * dotList a b),
          mul_nonneg (add_nonneg (mul_self_nonneg y) (le_of_lt hbpos))
            (sub_nonneg.mpr h), hbpos]

theorem dotList_comm (a b : List ℝ) : dotList a b = dotList b a := by
  unfold dotList
  rw [List.zipWith_comm_of_comm (fun x y => x * y) mul_comm]

theorem cosineSimilarity_comm (a b : Option Emb) :
    cosineSimilarity a b = cosineSimilarity b a := by
  match a, b with
  | none, none => rfl
  | none, some b => rfl
  | some a, none => rfl
  | some a, some b =>
    simp only [cosineSimilarity]
    split_ifs <;>
      first
      | rfl
      | tauto
      | omega
      | (rw [dotList_comm, mul_comm])

theorem cosineSimilarity_bounds {a b : Emb} (hlen : a.length = b.length)
    (hne : a ≠ []) (hna : normSq a ≠ 0) (hnb : normSq b ≠ 0) :
    cosineSimilarity (some a) (some b) =
      dotList a b / (Real.sqrt (normSq a) * Real.sqrt (normSq b)) ∧
    -1 ≤ cosineSimilarity (some a) (some b) ∧
    cosineSimilarity (some a) (some b) ≤ 1 := by
  have hcond1 : ¬ (a.length ≠ b.length ∨ a.length = 0) := by
    push_neg
    exact ⟨hlen, (List.length_pos.mpr hne).ne'⟩
  have hcond2 : ¬ (normSq a = 0 ∨ normSq b = 0) := by
    push_neg
    exact ⟨hna, hnb⟩
  have hval : cosineSimilarity (some a) (some b) =
      dotList a b / (Real.sqrt (normSq a) * Real.sqrt (normSq b)) := by
    simp only [cosineSimilarity, if_neg hcond1, if_neg hcond2]
  have hapos : 0 < normSq a := lt_of_le_of_ne (normSq_nonneg a) (Ne.symm hna)
  have hbpos : 0 < normSq b := lt_of_le_of_ne (normSq_nonneg b) (Ne.symm hnb)
  have hp : 0 < Real.sqrt (normSq a) * Real.sqrt (normSq b) :=
    mul_pos (Real.sqrt_pos.mpr hapos) (Real.sqrt_pos.mpr hbpos)
  have habs : |dotList a b| ≤ Real.sqrt (normSq a) * Real.sqrt (normSq b) := by
    have h1 : Real.sqrt (dotList a b ^ 2) ≤ Real.sqrt (normSq a * normSq b) :=
      Real.sqrt_le_sqrt (dotList_sq_le a b)
    rwa [Real.sqrt_sq_eq_abs, Real.sqrt_mul (normSq_nonneg a)] at h1
  have hq : |dotList a b / (Real.sqrt (normSq a) * Real.sqrt (normSq b))| ≤ 1 := by
    rw [abs_div, abs_of_pos hp]
    exact (div_le_one hp).mpr habs
  refine ⟨hval, ?_, ?_⟩ <;> rw [hval]
  · exact (abs_le.mp hq).1
  · exact (abs_le.mp hq).2

/-- C2: `cosineSimilarity(a, b)` returns exactly 0 whenever either vector
is missing, empty, of unequal length, or has zero norm; for all other
inputs it equals the dot product divided by the product of the norms and
lies in [-1, 1]; and it is symmetric. -/
theorem claim_C2 :
    (∀ b, cosineSimilarity none b = 0) ∧
    (∀ a, cosineSimilarity a none = 0) ∧
    (∀ a b : Emb, a.length ≠ b.length → cosineSimilarity (some a) (some b) = 0) ∧
    (∀ a b : Emb, a = [] ∨ b = [] → cosineSimilarity (some a) (some b) = 0) ∧
    (∀ a b : Emb, normSq a = 0 ∨ normSq b = 0 →
      cosineSimilarity (some a) (some b) = 0) ∧
    (∀ a b : Emb, a.length = b.length → a ≠ [] → normSq a ≠ 0 → normSq b ≠ 0 →
      cosineSimilarity (some a) (some b) =
        dotList a b / (Real.sqrt (normSq a) * Real.sqrt (normSq b)) ∧
      -1 ≤ cosineSimilarity (some a) (some b) ∧
      cosineSimilarity (some a) (some b) ≤ 1) ∧
    (∀ a b, cosineSimilarity a b = cosineSimilarity b a) := by
  refine ⟨fun _ => rfl, ?_, ?_, ?_, ?_, ?_, cosineSimilarity_comm⟩
  · intro a
    cases a <;> rfl
  · intro a b h
    simp only [cosineSimilarity]
    rw [if_pos (Or.inl h)]
  · intro a b h
    have hcond : a.length ≠ b.length ∨ a.length = 0 := by
      rcases h with rfl | rfl
      · exact Or.inr rfl
      · by_cases h0 : a.length = 0
        · exact Or.inr h0
        · exact Or.inl (by simpa using h0)
    simp only [cosineSimilarity]
    rw [if_pos hcond]
  · intro a b h
    simp only [cosineSimilarity]
    split_ifs <;> rfl
  · exact fun a b h1 h2 h3 h4 => cosineSimilarity_bounds h1 h2 h3 h4

/-- Witness for C2 at concrete vectors: the zero-norm input `[0]` yields 0,
and the non-degenerate pair `[1], [1]` stays within [-1, 1]. -/
theorem claim_C2_witness :
    cosineSimilarity (some [(0 : ℝ)]) (some [(0 : ℝ)]) = 0 ∧
    -1 ≤ cosineSimilarity (some [(1 : ℝ)]) (some [(1 : ℝ)]) ∧
    cosineSimilarity (some [(1 : ℝ)]) (some [(1 : ℝ)]) ≤ 1 := by
  refine ⟨?_, ?_, ?_⟩
  · exact claim_C2.2.2.2.2.1 [0] [0] (Or.inl (by norm_num [normSq]))
  · exact (claim_C2.2.2.2.2.2.1 [1] [1] rfl (by simp)
      (by norm_num [normSq]) (by norm_num [normSq])).2.1
  · exact (claim_C2.2.2.2.2.2.1 [1] [1] rfl (by simp)
      (by norm_num [normSq]) (by norm_num [normSq])).2.2

/-- Case split on the outcome of `findRelevantChunks`: either the result is
empty, or the query embedding succeeded, the filtered candidate set is
non-empty, and the result is the sorted-and-truncated scored list. -/
theorem findRelevantChunks_cases (embed : JStr → Option Emb) (cache : Cache)
    (query : JStr) (chunks : List RChunk) (count : ℕ) :
    (findRelevantChunks embed cache query chunks count).1 = [] ∨
    ∃ qe c1, generateEmbedding embed cache query = (some qe, c1) ∧
      (chunks.filter fun ch => embNonempty ch.embedding) ≠ [] ∧
      (findRelevantChunks embed cache query chunks count).1 =
        (((chunks.filter fun ch => embNonempty ch.embedding).map
          (scoreChunk qe)).insertionSort scoreGe).take count := by
  unfold findRelevantChunks
  by_cases h0 : chunks.isEmpty
  · simp [h0]
  · rcases hg : generateEmbedding embed cache query with ⟨r, c1⟩
    cases r with
    | none => simp [h0, hg]
    | some qe =>
      by_cases hs : ((chunks.filter fun ch => embNonempty ch.embedding).map
          (scoreChunk qe)).isEmpty
      · simp [h0, hg, hs]
      · right
        refine ⟨qe, c1, rfl, ?_, ?_⟩
        · intro hf
          rw [hf] at hs
          exact hs rfl
        · simp [h0, hg, hs]

/-- C1: the retriever returns at most `topK` results, with non-increasing
scores; every returned candidate carries a non-empty embedding; an empty
candidate set, or one emptied by the embedding filter, yields the empty
sequence (never an error). -/
theorem claim_C1 (embed : JStr → Option Emb) (cache : Cache) (query : JStr)
    (chunks : List RChunk) (count : ℕ) :
    (findRelevantChunks embed cache query chunks count).1.length ≤ count ∧
    (findRelevantChunks embed cache query chunks count).1.Pairwise scoreGe ∧
    (∀ ch ∈ (findRelevantChunks embed cache query chunks count).1,
      embNonempty ch.embedding = true) ∧
    (chunks = [] → (findRelevantChunks embed cache query chunks count).1 = []) ∧
    ((chunks.filter fun ch => embNonempty ch.embedding) = [] →
      (findRelevantChunks embed cache query chunks count).1 = []) := by
  rcases findRelevantChunks_cases embed cache query chunks count with h | ⟨qe, c1, hg, hf, h⟩
  · rw [h]
    exact ⟨Nat.zero_le _, List.Pairwise.nil, fun ch hch => absurd hch (List.not_mem_nil ch),
      fun _ => rfl, fun _ => rfl⟩
  · refine ⟨?_, ?_, ?_, ?_, ?_⟩
    · rw [h, List.length_take]
      exact min_le_left _ _
    · rw [h]
      exact List.Pairwise.sublist (List.take_sublist _ _)
        (List.sorted_insertionSort scoreGe _)
    · intro ch hch
      rw [h] at hch
      have h1 : ch ∈ ((chunks.filter fun c => embNonempty c.embedding).map
          (scoreChunk qe)).insertionSort scoreGe := List.mem_of_mem_take hch
      have h2 : ch ∈ (chunks.filter fun c => embNonempty c.embedding).map
          (scoreChunk qe) := (List.perm_insertionSort scoreGe _).mem_iff.mp h1
      obtain ⟨src, hsrc, rfl⟩ := List.mem_map.mp h2
      exact (List.mem_filter.mp hsrc).2
    · intro hc
      subst hc
      exact absurd rfl hf
    · intro hc
      exact absurd hc hf

/-- Witness for C1: a candidate set whose single element has no embedding
is emptied by the filter and yields the empty result. -/
theorem claim_C1_witness :
    (findRelevantChunks (fun _ => none) [] []
      [⟨"t".data, none, []⟩] 3).1 = [] :=
  (claim_C1 (fun _ => none) [] [] [⟨"t".data, none, []⟩] 3).2.2.2.2 rfl

theorem generateChunkEmbeddings_map_text (embed : JStr → Option Emb) :
    ∀ (cs : List JStr) (cache : Cache),
      (generateChunkEmbeddings embed cache cs).1.map (·.text) = cs := by
  intro cs
  induction cs with
  | nil => intro cache; rfl
  | cons c cs ih =>
    intro cache
    rcases hg : generateEmbedding embed cache c with ⟨r, c1⟩
    simp [generateChunkEmbeddings, hg, ih c1]

theorem generateChunkEmbeddings_map_embedding (embed : JStr → Option Emb) :
    ∀ (cs : List JStr) (cache : Cache),
      (generateChunkEmbeddings embed cache cs).1.map (·.embedding) =
        (embedResults embed cache cs).map (fun r => r.getD []) := by
  intro cs
  induction cs with
  | nil => intro cache; rfl
  | cons c cs ih =>
    intro cache
    rcases hg : generateEmbedding embed cache c with ⟨r, c1⟩
    simp [generateChunkEmbeddings, embedResults, hg, ih c1]

/-- C3: the batch embedding emits exactly one output chunk per input chunk
in input order, and a per-chunk embedding failure is isolated: the failed
chunk is emitted with an empty embedding instead of aborting the batch. -/
theorem claim_C3 (embed : JStr → Option Emb) (cache : Cache) (chunks : List JStr) :
    (generateChunkEmbeddings embed cache chunks).1.map (·.text) = chunks ∧
    (generateChunkEmbeddings embed cache chunks).1.length = chunks.length ∧
    (∀ i : ℕ, (embedResults embed cache chunks)[i]? = some none →
      ∃ ch : Chunk, (generateChunkEmbeddings embed cache chunks).1[i]? = some ch ∧
        ch.embedding = []) := by
  refine ⟨generateChunkEmbeddings_map_text embed chunks cache, ?_, ?_⟩
  · have h := congrArg List.length (generateChunkEmbeddings_map_text embed chunks cache)
    simpa using h
  · intro i hi
    have h := congrArg (fun l => l[i]?)
      (generateChunkEmbeddings_map_embedding embed chunks cache)
    simp only [List.getElem?_map, hi, Option.map_some'] at h
    obtain ⟨ch, hch, hemb⟩ := Option.map_eq_some'.mp h
    exact ⟨ch, hch, hemb⟩

/-- Witness for C3: with an always-failing embedder, the single chunk is
still emitted, with an empty embedding. -/
theorem claim_C3_witness :
    ∃ ch : Chunk,
      (generateChunkEmbeddings (fun _ => none) [] [[]]).1[0]? = some ch ∧
      ch.embedding = [] :=
  (claim_C3 (fun _ => none) [] [[]]).2.2 0 rfl

/-- C4: `generateSummary` never raises: on an unrecoverable generation
failure it returns the static fallback text with an empty embedding, and a
failure to embed a successfully generated summary still returns that
summary text with an empty embedding. -/
theorem claim_C4 (gen : JStr → Option JStr) (embed : JStr → Option Emb)
    (cache : Cache) (messages : List Message) :
    (gen (summaryQuery messages) = none →
      (generateSummary gen embed cache messages).1 = ⟨fallbackSummaryText, []⟩) ∧
    (∀ s, gen (summaryQuery messages) = some s →
      (generateSummary gen embed cache messages).1.text = s ∧
      ((generateEmbedding embed cache s).1 = none →
        (generateSummary gen embed cache messages).1.embedding = [])) := by
  constructor
  · intro h
    simp [generateSummary, h]
  · intro s h
    rcases hg : generateEmbedding embed cache s with ⟨r, c1⟩
    constructor
    · simp [generateSummary, h, hg]
    · intro hr
      simp only at hr
      subst hr
      simp [generateSummary, h, hg]

/-- Witness for C4: with a failing generator the degraded summary is the
static fallback with an empty embedding. -/
theorem claim_C4_witness :
    (generateSummary (fun _ => none) (fun _ => none) [] []).1 =
      ⟨fallbackSummaryText, []⟩ :=
  (claim_C4 (fun _ => none) (fun _ => none) [] []).1 rfl

/-- C5: the summarization trigger is `messageCount > 10` and divisible by
10 (false at 10, 11 and 21; true at 20), and at 20 messages the summarized
window is messages 9 through 18 while the recorded range is
`{start: 9, end: 19}`. -/
theorem claim_C5 :
    (∀ n, shouldSummarize n = true ↔ (10 < n ∧ n % 10 = 0)) ∧
    shouldSummarize 10 = false ∧
    shouldSummarize 11 = false ∧
    shouldSummarize 20 = true ∧
    shouldSummarize 21 = false ∧
    (∀ msgs : List Message, msgs.length = 20 →
      summaryWindow msgs = (msgs.drop 9).take 10) ∧
    summaryRange 20 = (9, 19) := by
  refine ⟨?_, rfl, rfl, rfl, rfl, ?_, rfl⟩
  · intro n
    simp [shouldSummarize]
  · intro msgs hlen
    have h := (List.take_drop 9 10 msgs).symm
    norm_num at h
    simp only [summaryWindow, jsSlice, jsSliceIdx, hlen]
    norm_num
    exact h

/-- Witness for C5: the window equation instantiated on a 20-message list. -/
theorem claim_C5_witness :
    summaryWindow (List.replicate 20
        (⟨Sender.user, [], none, []⟩ : Message)) =
      ((List.replicate 20 (⟨Sender.user, [], none, []⟩ : Message)).drop 9).take 10 :=
  claim_C5.2.2.2.2.2.1 _ (by simp)

theorem jsSlice_zero_neg5 (l : List α) : jsSlice l 0 (-5) = l.take (l.length - 5) := by
  simp [jsSlice, jsSliceIdx]

/-- C6: conversation-context is empty for conversations of fewer than 6
messages; otherwise the retrieval candidates are exactly the embedded
messages older than the most recent 5, retrieved with `topK = 3`; when no
candidate carries an embedding, retrieval falls back to the conversation
summaries with `topK = 1`. -/
theorem claim_C6 (embed : JStr → Option Emb) (cache : Cache) (query : JStr)
    (chat : ChatState) :
    (chat.messages.length < 6 →
      (getRelevantMessages embed cache query chat).1 = []) ∧
    (6 ≤ chat.messages.length →
      ((olderThanRecent5 chat.messages).filter (fun m => embNonempty m.embedding) = [] →
        getRelevantMessages embed cache query chat =
          getRelevantSummaries embed cache query chat) ∧
      ((olderThanRecent5 chat.messages).filter (fun m => embNonempty m.embedding) ≠ [] →
        getRelevantMessages embed cache query chat =
          (List.intercalate "\n\n".data
            ((findRelevantChunks embed cache query
              (((olderThanRecent5 chat.messages).filter fun m => embNonempty m.embedding).map
                fun m => ⟨m.content, m.embedding, []⟩) 3).1.map fun m => m.text),
           (findRelevantChunks embed cache query
              (((olderThanRecent5 chat.messages).filter fun m => embNonempty m.embedding).map
                fun m => ⟨m.content, m.embedding, []⟩) 3).2))) ∧
    (chat.summaries = [] → (getRelevantSummaries embed cache query chat).1 = []) ∧
    (chat.summaries ≠ [] →
      getRelevantSummaries embed cache query chat =
        (List.intercalate "\n\n".data
          ((findRelevantChunks embed cache query
            (chat.summaries.map fun s => ⟨s.text, some s.embedding, []⟩) 1).1.map
            fun s => "CONVERSATION SUMMARY: ".data ++ s.text),
         (findRelevantChunks embed cache query
            (chat.summaries.map fun s => ⟨s.text, some s.embedding, []⟩) 1).2)) := by
  have hslice : jsSlice chat.messages 0 (-5) = olderThanRecent5 chat.messages :=
    jsSlice_zero_neg5 chat.messages
  refine ⟨?_, ?_, ?_, ?_⟩
  · intro h
    have h5 : chat.messages.length ≤ 5 := by omega
    simp [getRelevantMessages, h5]
  · intro h6
    have h5 : ¬ chat.messages.length ≤ 5 := by omega
    constructor
    · intro hf
      simp only [getRelevantMessages, if_neg h5]
      rw [hslice]
      simp [hf]
    · intro hne
      have hemp : ¬ ((olderThanRecent5 chat.messages).filter
          (fun m => embNonempty m.embedding)).isEmpty := by
        simpa [List.isEmpty_iff] using hne
      rcases hfr : findRelevantChunks embed cache query
          (((olderThanRecent5 chat.messages).filter fun m => embNonempty m.embedding).map
            fun m => ⟨m.content, m.embedding, []⟩) 3 with ⟨rel, c1⟩
      simp only [getRelevantMessages, if_neg h5]
      rw [hslice]
      simp [hemp, hfr]
  · intro hs
    simp [getRelevantSummaries, hs]
  · intro hs
    have hemp : ¬ chat.summaries.isEmpty := by
      simpa [List.isEmpty_iff] using hs
    rcases hfr : findRelevantChunks embed cache query
        (chat.summaries.map fun s => ⟨s.text, some s.embedding, []⟩) 1 with ⟨rel, c1⟩
    simp [getRelevantSummaries, hemp, hfr]

/-- Witness for C6: a 6-message conversation with no embeddings and no
summaries falls through to the summary path and yields empty context. -/
theorem claim_C6_witness :
    (getRelevantMessages (fun _ => none) [] []
      ⟨List.replicate 6 ⟨Sender.user, [], none, []⟩, [], []⟩).1 = [] := by
  have h := claim_C6 (fun _ => none) [] []
    ⟨List.replicate 6 ⟨Sender.user, [], none, []⟩, [], []⟩
  have h2 := (h.2.1 (by simp)).1 rfl
  rw [h2]
  exact h.2.2.1 rfl

/-- C7 counterexample: on title-generation failure with the short user
message "Hi", the stored fallback title is "Hi" itself, not the user
message truncated to 27 characters plus an ellipsis. -/
theorem claim_C7_counterexample :
    storedTitle none "Hi".data ≠ "Hi".data.take 27 ++ "...".data := by
  decide

/-- C7 (amended): a generated title longer than 50 characters is stored as
its first 47 characters plus an ellipsis; on title-generation failure the
fallback is the user message truncated to 27 characters plus an ellipsis
when the message exceeds 30 characters, and the untruncated message
otherwise; consequently every stored title has length at most 50. -/
theorem claim_C7 (t msg : JStr) :
    (50 < t.length → storedTitle (some t) msg = t.take 47 ++ "...".data) ∧
    (30 < msg.length → storedTitle none msg = msg.take 27 ++ "...".data) ∧
    (msg.length ≤ 30 → storedTitle none msg = msg) ∧
    (storedTitle (some t) msg).length ≤ 50 ∧
    (storedTitle none msg).length ≤ 50 := by
  have hdots : ("...".data).length = 3 := rfl
  refine ⟨?_, ?_, ?_, ?_, ?_⟩
  · intro h
    simp only [storedTitle]
    rw [if_pos h]
  · intro h
    simp only [storedTitle]
    rw [if_pos h]
  · intro h
    simp only [storedTitle]
    rw [if_neg (by omega)]
  · by_cases h : 50 < t.length
    · simp only [storedTitle]
      rw [if_pos h]
      simp only [List.length_append, List.length_take, hdots]
      omega
    · simp only [storedTitle]
      rw [if_neg h]
      omega
  · by_cases h : 30 < msg.length
    · simp only [storedTitle]
      rw [if_pos h]
      simp only [List.length_append, List.length_take, hdots]
      omega
    · simp only [storedTitle]
      rw [if_neg h]
      omega

/-- Witness for C7 at a 31-character message: the fallback title is the
27-character truncation plus ellipsis. -/
theorem claim_C7_witness :
    storedTitle none (List.replicate 31 'a') =
      (List.replicate 31 'a').take 27 ++ "...".data :=
  (claim_C7 [] (List.replicate 31 'a')).2.1 (by simp)

/-- C8: when the generation streaming call fails after the user message is
appended, `sendMessage` returns a failure carrying the upstream error
detail and emits the error notification to the subscriber channel, while
the appended user message stays persisted; more generally, no path of
`sendMessage` ever removes previously persisted messages. -/
theorem claim_C8 (deps : SendDeps) (cache : Cache) (chat : ChatState)
    (message : JStr) (fileRefs : List JStr) (referencedChunks : List RChunk) :
    (∃ tail,
      (sendMessage deps cache chat message fileRefs referencedChunks).2.1.messages =
        chat.messages ++ tail) ∧
    (∀ em e, (generateEmbedding deps.embed cache message).1 = some em →
      deps.genStream = Except.error e →
      (sendMessage deps cache chat message fileRefs referencedChunks).1 =
        Response.fail e ∧
      (sendMessage deps cache chat message fileRefs referencedChunks).2.2.1 =
        [Event.processingStarted, Event.errorEvent e] ∧
      (sendMessage deps cache chat message fileRefs referencedChunks).2.1.messages =
        chat.messages ++ [userMessage message em fileRefs]) := by
  have hsum : ∀ (c1 : Cache) (chat1 : ChatState),
      (summaryStage deps c1 chat1).1.messages = chat1.messages := by
    intro c1 chat1
    unfold summaryStage
    split <;> rfl
  have htitle : ∀ (p : Prop) (inst : Decidable p) (chat3 : ChatState) (t : JStr),
      (@titleStage p inst chat3 t).messages = chat3.messages := by
    intro p inst chat3 t
    unfold titleStage
    split <;> rfl
  unfold sendMessage
  rcases hq : generateEmbedding deps.embed cache message with ⟨r, c1⟩
  cases r with
  | none =>
    refine ⟨⟨[], by simp⟩, ?_⟩
    intro em e hem he
    simp at hem
  | some em =>
    dsimp only
    constructor
    · rcases hgen : deps.genStream with e | streamParts <;> dsimp only
      · exact ⟨[userMessage message em fileRefs], hsum c1 _⟩
      · split
        · exact ⟨[userMessage message em fileRefs], hsum c1 _⟩
        · rename_i aiEmb c5 heq
          refine ⟨[userMessage message em fileRefs] ++
            [⟨Sender.ai, List.foldl (· ++ ·) [] streamParts, some aiEmb, []⟩], ?_⟩
          rw [htitle]
          dsimp only
          rw [hsum c1, List.append_assoc]
    · intro em2 e2 hem2 he2
      have h2 : em = em2 := by simpa using hem2
      subst h2
      rw [he2]
      dsimp only
      exact ⟨rfl, rfl, hsum c1 _⟩

/-- Witness for C8: a failing generation stream yields the failure response
carrying the upstream detail. -/
theorem claim_C8_witness :
    (sendMessage
      ⟨fun _ => some [(1 : ℝ)], fun _ => none, Except.error "boom".data, fun _ => none⟩
      [] ⟨[], [], []⟩ "hi".data [] []).1 = Response.fail "boom".data :=
  ((claim_C8
      ⟨fun _ => some [(1 : ℝ)], fun _ => none, Except.error "boom".data, fun _ => none⟩
      [] ⟨[], [], []⟩ "hi".data [] []).2 [(1 : ℝ)] "boom".data rfl rfl).1

theorem lookupCache_eq_none {c : Cache} {k : JStr} (h : k ∉ cacheKeys c) :
    lookupCache c k = none := by
  induction c with
  | nil => rfl
  | cons p rest ih =>
    rcases p with ⟨pk, pv⟩
    simp only [cacheKeys, List.map_cons, List.mem_cons, not_or] at h
    simp only [lookupCache]
    rw [if_neg (fun he => h.1 he.symm)]
    exact ih (by simpa [cacheKeys] using h.2)

theorem cacheKeys_append (c1 c2 : Cache) :
    cacheKeys (c1 ++ c2) = cacheKeys c1 ++ cacheKeys c2 := by
  simp [cacheKeys]

/-- Running fresh, successfully-embedded, pairwise-distinct texts through
the cache keeps the oldest-first order and drops exactly the overflow from
the front. -/
theorem runAll_eq (embed : JStr → Option Emb) :
    ∀ (ts : List JStr) (c : Cache),
      (∀ t ∈ ts, (embed t).isSome = true) →
      (ts.map cacheKey).Nodup →
      (∀ t ∈ ts, cacheKey t ∉ cacheKeys c) →
      c.length ≤ 1000 →
      runAll embed c ts =
        (c ++ ts.map (cacheEntry embed)).drop (c.length + ts.length - 1000) := by
  intro ts
  induction ts with
  | nil =>
    intro c _ _ _ h4
    simp [runAll, Nat.sub_eq_zero_of_le h4]
  | cons t ts ih =>
    intro c h1 h2 h3 h4
    obtain ⟨e, he⟩ := Option.isSome_iff_exists.mp (h1 t (List.mem_cons_self t ts))
    have hmiss : lookupCache c (cacheKey t) = none :=
      lookupCache_eq_none (h3 t (List.mem_cons_self t ts))
    have hstep : insertStep embed c t =
        if 1000 < (c ++ [(cacheKey t, e)]).length then (c ++ [(cacheKey t, e)]).tail
        else c ++ [(cacheKey t, e)] := by
      simp [insertStep, generateEmbedding, hmiss, he]
    have hentry : cacheEntry embed t = (cacheKey t, e) := by
      simp [cacheEntry, he]
    have h2' : (ts.map cacheKey).Nodup := (List.nodup_cons.mp (by simpa using h2)).2
    have hknot : cacheKey t ∉ ts.map cacheKey := (List.nodup_cons.mp (by simpa using h2)).1
    have hrun : runAll embed c (t :: ts) = runAll embed (insertStep embed c t) ts := rfl
    rcases Nat.lt_or_ge c.length 1000 with hlt | hge
    · have hlen1 : ¬ 1000 < (c ++ [(cacheKey t, e)]).length := by
        simp [List.length_append]
        omega
      have hc1 : insertStep embed c t = c ++ [(cacheKey t, e)] := by
        rw [hstep, if_neg hlen1]
      have h3' : ∀ u ∈ ts, cacheKey u ∉ cacheKeys (c ++ [(cacheKey t, e)]) := by
        intro u hu
        rw [cacheKeys_append]
        simp only [List.mem_append, not_or]
        refine ⟨h3 u (List.mem_cons_of_mem t hu), ?_⟩
        simp only [cacheKeys, List.map_cons, List.map_nil, List.mem_singleton]
        intro hequ
        exact hknot (hequ ▸ List.mem_map_of_mem cacheKey hu)
      have h4' : (c ++ [(cacheKey t, e)]).length ≤ 1000 := by
        simp [List.length_append]
        omega
      rw [hrun, hc1, ih _ (fun u hu => h1 u (List.mem_cons_of_mem t hu)) h2' h3' h4']
      rw [List.map_cons, hentry]
      have harr : c ++ [(cacheKey t, e)] ++ ts.map (cacheEntry embed) =
          c ++ (cacheKey t, e) :: ts.map (cacheEntry embed) := by
        rw [List.append_assoc, List.singleton_append]
      rw [harr]
      have hamt : (c ++ [(cacheKey t, e)]).length + ts.length - 1000 =
          c.length + (t :: ts).length - 1000 := by
        simp [List.length_append]
        omega
      rw [hamt]
    · have hceq : c.length = 1000 := le_antisymm h4 hge
      have hlen1 : 1000 < (c ++ [(cacheKey t, e)]).length := by
        simp [List.length_append]
        omega
      have hc1 : insertStep embed c t = (c ++ [(cacheKey t, e)]).tail := by
        rw [hstep, if_pos hlen1]
      cases c with
      | nil => simp at hceq
      | cons hd ctl =>
        have htail : ((hd :: ctl) ++ [(cacheKey t, e)]).tail = ctl ++ [(cacheKey t, e)] := rfl
        have hctl : ctl.length = 999 := by
          simp at hceq
          omega
        have h3' : ∀ u ∈ ts, cacheKey u ∉ cacheKeys (ctl ++ [(cacheKey t, e)]) := by
          intro u hu
          rw [cacheKeys_append]
          simp only [List.mem_append, not_or]
          constructor
          · intro hmem
            exact h3 u (List.mem_cons_of_mem t hu)
              (by simp [cacheKeys]; right; simpa [cacheKeys] using hmem)
          · simp only [cacheKeys, List.map_cons, List.map_nil, List.mem_singleton]
            intro hequ
            exact hknot (hequ ▸ List.mem_map_of_mem cacheKey hu)
        have h4' : (ctl ++ [(cacheKey t, e)]).length ≤ 1000 := by
          simp [List.length_append]
          omega
        rw [hrun, hc1, htail,
          ih _ (fun u hu => h1 u (List.mem_cons_of_mem t hu)) h2' h3' h4']
        rw [List.map_cons, hentry]
        have harr : ctl ++ [(cacheKey t, e)] ++ ts.map (cacheEntry embed) =
            ctl ++ (cacheKey t, e) :: ts.map (cacheEntry embed) := by
          rw [List.append_assoc, List.singleton_append]
        rw [harr]
        have hL : (hd :: ctl) ++ (cacheKey t, e) :: ts.map (cacheEntry embed) =
            hd :: (ctl ++ (cacheKey t, e) :: ts.map (cacheEntry embed)) := rfl
        rw [hL]
        have hamt1 : (ctl ++ [(cacheKey t, e)]).length + ts.length - 1000 = ts.length := by
          simp [List.length_append]
          omega
        have hamt2 : (hd :: ctl).length + (t :: ts).length - 1000 = ts.length + 1 := by
          simp
          omega
        rw [hamt1, hamt2, List.drop_succ_cons]

/-- C9: the embedding cache never holds more than 1000 entries after a
`generateEmbedding` call returns, and after inserting 1001 entries with
pairwise-distinct cache keys into an empty cache exactly the
first-inserted entry has been evicted (insertion-order eviction), leaving
exactly 1000 entries in insertion order. -/
theorem claim_C9 (embed : JStr → Option Emb) :
    (∀ (cache : Cache) (t : JStr), cache.length ≤ 1000 →
      ((generateEmbedding embed cache t).2).length ≤ 1000) ∧
    (∀ ts : List JStr, ts.length = 1001 →
      (∀ t ∈ ts, (embed t).isSome = true) →
      (ts.map cacheKey).Nodup →
      runAll embed [] ts = (ts.drop 1).map (cacheEntry embed) ∧
      (runAll embed [] ts).length = 1000) := by
  constructor
  · intro cache t hlen
    unfold generateEmbedding
    cases hlk : lookupCache cache (cacheKey t) with
    | some v => simpa using hlen
    | none =>
      cases hemb : embed t with
      | none => simpa using hlen
      | some e =>
        dsimp only
        split
        · rename_i hgt
          simp only [List.length_tail, List.length_append, List.length_singleton] at hgt ⊢
          omega
        · rename_i hng
          simp only [List.length_append, not_lt] at hng
          simpa using hng
  · intro ts hlen h1 h2
    have h := runAll_eq embed ts [] h1 h2
      (by intro u hu; simp [cacheKeys]) (by simp)
    have hdrop : runAll embed [] ts = (ts.drop 1).map (cacheEntry embed) := by
      rw [h, List.map_drop]
      simp [hlen]
    refine ⟨hdrop, ?_⟩
    rw [hdrop]
    simp [hlen]

theorem c9Text_length (i : ℕ) : (c9Text i).length = i / 26 + 1 := by
  simp [c9Text]

theorem cacheKey_c9Text {i : ℕ} (h : i < 2600) : cacheKey (c9Text i) = c9Text i := by
  apply List.take_of_length_le
  rw [c9Text_length]
  omega

theorem c9Letter_inj :
    ∀ a, a < 26 → ∀ b, b < 26 → c9Letter a = c9Letter b → a = b := by
  decide

theorem c9Text_inj {a b : ℕ} (_ha : a < 1001) (_hb : b < 1001)
    (h : c9Text a = c9Text b) : a = b := by
  have hlen : a / 26 + 1 = b / 26 + 1 := by
    have := congrArg List.length h
    rwa [c9Text_length, c9Text_length] at this
  have hdiv : a / 26 = b / 26 := by omega
  have hparts := List.append_inj h (by simp [c9Text, hdiv])
  have hsing : [c9Letter (a % 26)] = [c9Letter (b % 26)] := hparts.2
  have hlet : c9Letter (a % 26) = c9Letter (b % 26) := by
    injection hsing with h1 _
  have hmod : a % 26 = b % 26 :=
    c9Letter_inj (a % 26) (Nat.mod_lt a (by norm_num)) (b % 26)
      (Nat.mod_lt b (by norm_num)) hlet
  omega

theorem c9Texts_length : c9Texts.length = 1001 := by
  simp [c9Texts]

theorem c9Keys_nodup : (c9Texts.map cacheKey).Nodup := by
  have hmap : c9Texts.map cacheKey = (List.range 1001).map c9Text := by
    rw [c9Texts, List.map_map]
    apply List.map_congr_left
    intro i hi
    exact cacheKey_c9Text (by have := List.mem_range.mp hi; omega)
  rw [hmap]
  exact List.Nodup.map_on
    (fun x hx y hy hxy =>
      c9Text_inj (List.mem_range.mp hx) (List.mem_range.mp hy) hxy)
    (List.nodup_range 1001)

/-- Witness for C9: inserting the 1001 distinct-key texts into the empty
cache leaves exactly 1000 entries. -/
theorem claim_C9_witness :
    (runAll (fun _ => some ([] : Emb)) [] c9Texts).length = 1000 :=
  ((claim_C9 (fun _ => some [])).2 c9Texts c9Texts_length
    (fun _ _ => rfl) c9Keys_nodup).2

end Spec2Proof
